import Mathlib

/-!
Verification of the game-of-life grid engine (`matrix.py`), the step
controller (`game_controller.py`) and the pattern loader against its
specification.  The Python code is embedded shallowly: the cell matrix is a
`List (List Bool)` (row-major, as the numpy array), numpy shift/insert/slice
operations become the corresponding list operations, mutation becomes
explicit state passing, and exceptions become `Except String`.
-/

namespace GOL

/-- The rule quadruple `self._params`, stored in the source as the list
`[min_alive, max_alive, min_dead, max_dead]` of Python integers. -/
structure Rule where
  min_alive : Int
  max_alive : Int
  min_dead : Int
  max_dead : Int
deriving DecidableEq, Repr

/-- The grid of cells: `np.ndarray` of booleans, row-major. -/
abbrev Grid := List (List Bool)

/-- State of a `matrix.Matrix` object: fields `nb_rows`, `nb_cols`, `cells`,
`iteration` and `_params`. -/
structure Matrix where
  nb_rows : Nat
  nb_cols : Nat
  cells : Grid
  iteration : Nat
  params : Rule
deriving DecidableEq, Repr

/-- Row `i` of a row-major matrix (`[]` when out of range). -/
def getRow {α : Type} (g : List (List α)) (i : Nat) : List α := (g.get? i).getD []

/-- Cell `(i, j)` of a grid (`false` when out of range). -/
def getCell (g : Grid) (i j : Nat) : Bool := ((getRow g i).get? j).getD false

/-- Entry `(i, j)` of an integer count matrix (`0` when out of range). -/
def getCount (ns : List (List Nat)) (i j : Nat) : Nat :=
  ((getRow ns i).get? j).getD 0

/-- The matrix is a well-formed `R × C` numpy array. -/
def hasShape {α : Type} (g : List (List α)) (R C : Nat) : Prop :=
  g.length = R ∧ ∀ i, i < R → (getRow g i).length = C

instance {α : Type} (g : List (List α)) (R C : Nat) : Decidable (hasShape g R C) := by
  unfold hasShape; exact instDecidableAnd

/-- `new_row = np.zeros(self.nb_cols)`: a row of zeros; inserted into the
boolean cell array the zeros are cast to `False`. -/
def new_row (C : Nat) : List Bool := List.replicate C false

/-- `np.insert` of one zero element at position 0 or `n` of a length-`n`
axis, followed by the slice `[:-1]` or `[1:]`: the shared shape of the four
shift operations of `_nb_alive_neighbors`, along one axis.
`d = 1` inserts in front and drops the last entry, `d = -1` inserts at
index `n` and drops the first entry, `d = 0` is the identity.  (Any other
value raises `ValueError`; the offsets used never reach that branch.) -/
def shiftList {α : Type} (n : Nat) (d : Int) (pad : α) (xs : List α) : List α :=
  if d = 1 then (List.insertIdx 0 pad xs).dropLast
  else if d = -1 then (List.insertIdx n pad xs).drop 1
  else xs

/-- The row shift of `_nb_alive_neighbors`:
`top = 1` is `np.insert(cells, 0, new_row, axis=0)[:-1, :]`,
`top = -1` is `np.insert(cells, self.nb_rows, new_row, axis=0)[1:, :]`,
`top = 0` leaves the array unchanged. -/
def shiftRows (R C : Nat) (top : Int) (g : Grid) : Grid :=
  shiftList R top (new_row C) g

/-- The column shift of `_nb_alive_neighbors`:
`left = 1` is `np.insert(cells, 0, new_col, axis=1)[:, :-1]`,
`left = -1` is `np.insert(cells, self.nb_cols, new_col, axis=1)[:, 1:]`,
`left = 0` leaves the array unchanged.  Inserting the zero column puts a
`False` at the given position of every row. -/
def shiftCols (C : Nat) (left : Int) (g : Grid) : Grid :=
  g.map (shiftList C left false)

/-- One iteration of the loop body of `_nb_alive_neighbors`: the row shift is
applied to a copy of the cells, then the column shift. -/
def shiftGrid (R C : Nat) (top left : Int) (g : Grid) : Grid :=
  shiftCols C left (shiftRows R C top g)

/-- `rows_cols_to_add`: the eight `(top, left)` shift amounts, in source
order. -/
def rows_cols_to_add : List (Int × Int) :=
  [(1, 0), (-1, 0), (0, 1), (0, -1), (1, 1), (-1, -1), (1, -1), (-1, 1)]

/-- `neighbors = neighbors + copy_cells`: numpy elementwise addition of a
boolean array into an integer array (`True` counts as 1). -/
def addBoolMat (acc : List (List Nat)) (g : Grid) : List (List Nat) :=
  List.zipWith
    (fun accRow gRow => List.zipWith (fun n b => n + if b then 1 else 0) accRow gRow)
    acc g

/-- `Matrix._nb_alive_neighbors`: starting from `np.tile(0, (nb_rows,
nb_cols))`, accumulate the eight shifted copies of the cell array. -/
def nb_alive_neighbors (m : Matrix) : List (List Nat) :=
  rows_cols_to_add.foldl
    (fun acc tl => addBoolMat acc (shiftGrid m.nb_rows m.nb_cols tl.1 tl.2 m.cells))
    (List.replicate m.nb_rows (List.replicate m.nb_cols 0))

/-- `being_born = ~self.cells & (self._params[2] <= nb_live_neighbors) &
(nb_live_neighbors <= self._params[3])`: numpy elementwise boolean
operations; integer comparisons against the Python ints of the rule. -/
def being_born (m : Matrix) (nb : List (List Nat)) : Grid :=
  List.zipWith
    (fun crow nrow =>
      List.zipWith
        (fun (c : Bool) (k : Nat) =>
          (!c && decide (m.params.min_dead ≤ (k : Int))) &&
            decide ((k : Int) ≤ m.params.max_dead))
        crow nrow)
    m.cells nb

/-- `staying_alive = self.cells & (self._params[0] <= nb_live_neighbors) &
(nb_live_neighbors <= self._params[1])`. -/
def staying_alive (m : Matrix) (nb : List (List Nat)) : Grid :=
  List.zipWith
    (fun crow nrow =>
      List.zipWith
        (fun (c : Bool) (k : Nat) =>
          (c && decide (m.params.min_alive ≤ (k : Int))) &&
            decide ((k : Int) ≤ m.params.max_alive))
        crow nrow)
    m.cells nb

/-- `Matrix.update`: compute the neighbor counts from the current cells, then
`cells = being_born | staying_alive`, `iteration += 1`. -/
def update (m : Matrix) : Matrix :=
  let nb := nb_alive_neighbors m
  { m with
    cells := List.zipWith (fun r1 r2 => List.zipWith (fun a b => a || b) r1 r2)
      (being_born m nb) (staying_alive m nb)
    iteration := m.iteration + 1 }

/-- The eight neighbor offsets `(dr, dc)` of the naive nested-loop count,
listed so that offset `k` is the displacement contributed by shift `k` of
`rows_cols_to_add` (a shift by `(top, left)` brings the neighbor at
`(-top, -left)` onto each cell). -/
def neighborOffsets : List (Int × Int) :=
  [(-1, 0), (1, 0), (0, -1), (0, 1), (-1, -1), (1, 1), (-1, 1), (1, -1)]

/-- Reading the grid at signed coordinates with the non-wrapping (clamped)
boundary policy: positions outside `[0, R) × [0, C)` are dead. -/
def clampedGet (g : Grid) (R C : Nat) (r c : Int) : Bool :=
  if 0 ≤ r ∧ r < (R : Int) ∧ 0 ≤ c ∧ c < (C : Int) then getCell g r.toNat c.toNat
  else false

/-- The specification's naive O(rows·cols·8) neighbor count with clamped
boundaries: sum, over the eight offsets, of the in-grid live neighbors. -/
def naiveNeighborCount (g : Grid) (R C : Nat) (i j : Nat) : Nat :=
  (neighborOffsets.map
    (fun d => if clampedGet g R C ((i : Int) + d.1) ((j : Int) + d.2) then 1 else 0)).sum


/-- Python/numpy indexing of one axis of length `n`: an index in `[0, n)` is
used as is, an index in `[-n, 0)` addresses from the end (`n + i`), anything
else raises `IndexError`. -/
def pyIndex (n : Nat) (i : Int) : Option Nat :=
  if 0 ≤ i then (if i < (n : Int) then some i.toNat else none)
  else (if -(n : Int) ≤ i then some (i + (n : Int)).toNat else none)

/-- `Matrix.change_cell`: `self.cells[x][y] = not self.cells[x][y]`, with
Python/numpy index semantics on both axes (an invalid index raises
`IndexError`, modeled as `Except.error`). -/
def change_cell (m : Matrix) (x y : Int) : Except String Matrix :=
  match pyIndex m.cells.length x with
  | none => Except.error "IndexError"
  | some i =>
    match pyIndex (getRow m.cells i).length y with
    | none => Except.error "IndexError"
    | some j =>
      Except.ok
        { m with cells := m.cells.set i ((getRow m.cells i).set j (!(getCell m.cells i j))) }

/-- `Matrix.__init__(params, nb_rows, nb_cols, init_live_pct)`: raises
`ValueError` iff `init_live_pct < 0 or 1 < init_live_pct`, otherwise draws
the cells with `np.random.choice` and starts the iteration counter at 0.
The random draw of shape `(nb_rows, nb_cols)` is modeled by the explicit
argument `sample`; with `init_live_pct = 0` (probabilities `p=[1, 0]`) the
draw is deterministically the all-dead grid.  `init_live_pct` is a Python
float, modeled as a rational (the comparisons with 0 and 1 agree). -/
def Matrix.init (params : Rule) (nb_rows nb_cols : Nat) (init_live_pct : ℚ)
    (sample : Grid) : Except String Matrix :=
  if init_live_pct < 0 ∨ 1 < init_live_pct then
    Except.error "initial_percentage should be between 0 and 1."
  else
    Except.ok
      { nb_rows := nb_rows, nb_cols := nb_cols, cells := sample, iteration := 0,
        params := params }

/-- The `data/` folder holding `.npy` snapshots, modeled as an association
list from file name to the stored cell matrix, most recent write first. -/
abbrev FileSystem := List (String × Grid)

/-- `np.load` of a previously written `.npy` file: the stored boolean matrix
(shape included), or `FileNotFoundError`/`None` if the name was never
written. -/
def np_load (fs : FileSystem) (filename : String) : Option Grid :=
  (fs.find? (fun entry => entry.1 == filename)).map (fun entry => entry.2)

/-- `Matrix.save`: `np.save(file_handler, self.cells)` under
`data_folder / filename` (the folder is created when missing). -/
def save (fs : FileSystem) (m : Matrix) (filename : String) : FileSystem :=
  (filename, m.cells) :: fs

/-- `Matrix.from_filename`: build `cls(params, nb_rows, nb_cols, 0)` and then
overwrite `matrix.cells` with `np.load` of `data_folder / filename`. -/
def from_filename (params : Rule) (nb_rows nb_cols : Nat) (fs : FileSystem)
    (filename : String) : Except String Matrix :=
  match Matrix.init params nb_rows nb_cols 0
      (List.replicate nb_rows (List.replicate nb_cols false)) with
  | Except.error e => Except.error e
  | Except.ok matrix =>
    match np_load fs filename with
    | none => Except.error "FileNotFoundError"
    | some loaded => Except.ok { matrix with cells := loaded }

/-- `Matrix.add_pattern`:
`self.cells[x_origin : x_origin+width, y_origin : y_origin+height] = pattern`
with `width, height = pattern.shape`.  numpy basic slicing clips both ranges
to the array extents; the assignment succeeds iff each pattern dimension
equals the clipped selection's dimension or is 1 (broadcasting), raising
`ValueError` otherwise and writing nothing; on success every selected cell
receives the corresponding (or broadcast) pattern cell.  The source carries
`# TODO Handle case out of bounds`: no bounds check is performed.  Origins
are modeled as naturals; `pattern` and the grid are rectangular in all
uses, so `pattern.shape` is `(length, length of first row)`. -/
def add_pattern (m : Matrix) (pattern : Grid) (pos : Nat × Nat) : Except String Matrix :=
  let x_origin := pos.1
  let y_origin := pos.2
  let width := pattern.length
  let height := (getRow pattern 0).length
  let R := m.cells.length
  let C := (getRow m.cells 0).length
  let rstart := min x_origin R
  let rstop := min (x_origin + width) R
  let cstart := min y_origin C
  let cstop := min (y_origin + height) C
  if (width = rstop - rstart ∨ width = 1) ∧ (height = cstop - cstart ∨ height = 1) then
    Except.ok
      { m with cells :=
          m.cells.mapIdx (fun i row =>
            if rstart ≤ i ∧ i < rstop then
              row.mapIdx (fun j _ =>
                if cstart ≤ j ∧ j < cstop then
                  getCell pattern (if width = 1 then 0 else i - rstart)
                    (if height = 1 then 0 else j - cstart)
                else getCell m.cells i j)
            else row) }
  else Except.error "ValueError: could not broadcast"

/-- Python `file.readlines` on the raw character contents: split after every
newline character, keeping it; a final fragment without a newline is its own
line; empty contents give no lines.  (`acc` holds the current line read so
far, reversed.) -/
def readlinesAux : List Char → List Char → List (List Char)
  | [], acc => if acc.isEmpty then [] else [acc.reverse]
  | c :: rest, acc =>
    if c = '\n' then (acc.reverse ++ ['\n']) :: readlinesAux rest []
    else readlinesAux rest (c :: acc)

/-- `file_handler.readlines()` on the file's contents. -/
def readlines (contents : List Char) : List (List Char) := readlinesAux contents []

/-- `load_pattern`: every character of every line read (trailing newline
included) is formatted as `'1'` if it is `'O'` and `'0'` otherwise, the
digits joined with spaces and the lines with newlines, and `np.loadtxt`
re-parses the result as rows of integers.  Since every formatted line is a
nonempty space-separated digit row, `loadtxt` recovers exactly those rows;
it raises `ValueError` when the rows have unequal lengths, and returns an
empty array (with a warning) for empty input.  A one-line input yields a
1-D array with the same values, modeled as a one-row matrix. -/
def load_pattern (contents : List Char) : Except String (List (List Nat)) :=
  let lines := readlines contents
  let rows := lines.map (fun line => line.map (fun c => if c = 'O' then (1 : Nat) else 0))
  match rows with
  | [] => Except.ok []
  | r0 :: rest =>
    if rest.all (fun r => r.length == r0.length) then Except.ok (r0 :: rest)
    else Except.error "ValueError"

/-- State of a `game_controller.Controller`: fields `_matrix`, `_interval`,
`_is_running`, `_selected_cell`. -/
structure Controller where
  matrix : Matrix
  interval : Int
  is_running : Bool
  selected_cell : Option (Int × Int)
deriving DecidableEq, Repr

/-- The `selected_cell` property setter: `self._selected_cell = value`,
unconditionally. -/
def set_selected_cell (c : Controller) (value : Option (Int × Int)) : Controller :=
  { c with selected_cell := value }

/-- The `is_running` property setter: `self._is_running = value`. -/
def set_is_running (c : Controller) (value : Bool) : Controller :=
  { c with is_running := value }

/-- `Controller.step_run`: if running, `self._matrix.update()`; elif a cell
is selected, `x, y = self._selected_cell; self._matrix.change_cell(y, x);
self._selected_cell = None`; else nothing.  Timing/logging instrumentation
is diagnostic only.  An `IndexError` raised by `change_cell` propagates
before the pending edit is cleared. -/
def step_run (c : Controller) : Except String Controller :=
  if c.is_running then Except.ok { c with matrix := update c.matrix }
  else
    match c.selected_cell with
    | some (x, y) =>
      (change_cell c.matrix y x).map (fun mm => { c with matrix := mm, selected_cell := none })
    | none => Except.ok c


/-! ### Concrete engines and inputs used as test vectors -/

/-- Standard Life rule `[2, 3, 3, 3]`. -/
def lifeRule : Rule := ⟨2, 3, 3, 3⟩

/-- A 6×6 engine whose only live cell is `(1, 1)`. -/
def cornerEngine11 : Matrix :=
  ⟨6, 6, (List.range 6).map (fun i => (List.range 6).map (fun j => decide (i = 1 ∧ j = 1))),
    0, lifeRule⟩

/-- A 6×6 engine whose only live cell is `(5, 5)`. -/
def cornerEngine55 : Matrix :=
  ⟨6, 6, (List.range 6).map (fun i => (List.range 6).map (fun j => decide (i = 5 ∧ j = 5))),
    0, lifeRule⟩

/-- A 2×2 all-dead engine (iteration counter 3). -/
def deadEngine2 : Matrix := ⟨2, 2, [[false, false], [false, false]], 3, lifeRule⟩

/-- A 3×3 engine holding a vertical blinker. -/
def blinkerEngine : Matrix :=
  ⟨3, 3, [[false, true, false], [false, true, false], [false, true, false]], 0, lifeRule⟩

/-- A rule violating every §3 consistency constraint: `min_alive > max_alive`,
`min_dead > max_dead` and `min_dead ∉ [0, 8]`. -/
def badRule : Rule := ⟨5, 2, 9, 3⟩

/-- A 1×1 engine with a live cell. -/
def soloEngine : Matrix := ⟨1, 1, [[true]], 0, lifeRule⟩

/-- The engine produced by `from_filename` with declared dimensions 5×7 on the
snapshot of `soloEngine`. -/
def loadedEngine : Matrix := ⟨5, 7, [[true]], 0, lifeRule⟩

end GOL


namespace GOL

/-! ### Basic lemmas about rows, cells and shifts -/

theorem length_getRow {α : Type} {g : List (List α)} {R C : Nat}
    (h : hasShape g R C) {i : Nat} (hi : i < R) : (getRow g i).length = C :=
  h.2 i hi

theorem getRow_eq_of_lt {α : Type} {g : List (List α)} {i : Nat} (hi : i < g.length) :
    g.get? i = some (getRow g i) := by
  unfold getRow
  rw [List.get?_eq_getElem?, List.getElem?_eq_getElem hi]
  rfl

theorem length_shiftList {α : Type} {xs : List α} {n : Nat} (d : Int) (pad : α)
    (h : xs.length = n) : (shiftList n d pad xs).length = n := by
  unfold shiftList
  split
  · simp [List.insertIdx_zero, h]
  · split
    · rw [← h, List.insertIdx_length_self]
      simp [h]
    · exact h

theorem get?_shiftList {α : Type} {xs : List α} {n : Nat} {d : Int} {pad : α}
    (h : xs.length = n) (hd : d = 1 ∨ d = -1 ∨ d = 0) {i : Nat} (hi : i < n) :
    (shiftList n d pad xs).get? i =
      if 0 ≤ (i : Int) - d ∧ (i : Int) - d < (n : Int) then xs.get? ((i : Int) - d).toNat
      else some pad := by
  rcases hd with rfl | rfl | rfl
  · unfold shiftList
    rw [if_pos rfl, List.insertIdx_zero, List.get?_eq_getElem?, List.getElem?_dropLast]
    rw [if_pos (by simp [h]; omega)]
    cases i with
    | zero =>
      rw [if_neg (by omega)]
      simp
    | succ k =>
      rw [if_pos (by omega)]
      have hk : (((k + 1 : Nat) : Int) - 1).toNat = k := by omega
      rw [hk]
      simp
  · unfold shiftList
    rw [if_neg (by norm_num), if_pos rfl, ← h, List.insertIdx_length_self,
      List.get?_eq_getElem?, List.getElem?_drop]
    by_cases hin : 1 + i < xs.length
    · rw [List.getElem?_append_left hin, if_pos (by omega)]
      have hk : (((i : Nat) : Int) - -1).toNat = 1 + i := by omega
      rw [hk]
      simp
    · rw [List.getElem?_append_right (by omega), if_neg (by omega)]
      have hk : 1 + i - xs.length = 0 := by omega
      rw [hk]
      rfl
  · unfold shiftList
    rw [if_neg (by norm_num), if_neg (by norm_num), if_pos (by omega)]
    have hk : (((i : Nat) : Int) - 0).toNat = i := by omega
    rw [hk]

theorem getRow_shiftRows {g : Grid} {R C : Nat} (h : hasShape g R C) {t : Int}
    (ht : t = 1 ∨ t = -1 ∨ t = 0) {i : Nat} (hi : i < R) :
    getRow (shiftRows R C t g) i =
      if 0 ≤ (i : Int) - t ∧ (i : Int) - t < (R : Int) then getRow g ((i : Int) - t).toNat
      else new_row C := by
  unfold getRow shiftRows
  rw [get?_shiftList h.1 ht hi]
  split
  · rfl
  · rfl

theorem hasShape_shiftRows {g : Grid} {R C : Nat} (h : hasShape g R C) {t : Int}
    (ht : t = 1 ∨ t = -1 ∨ t = 0) : hasShape (shiftRows R C t g) R C := by
  refine ⟨length_shiftList t (new_row C) h.1, fun i hi => ?_⟩
  rw [getRow_shiftRows h ht hi]
  split
  · exact length_getRow h (by omega)
  · simp [new_row]

theorem getCell_shiftRows {g : Grid} {R C : Nat} (h : hasShape g R C) {t : Int}
    (ht : t = 1 ∨ t = -1 ∨ t = 0) {i : Nat} (hi : i < R) (j : Nat) :
    getCell (shiftRows R C t g) i j =
      if 0 ≤ (i : Int) - t ∧ (i : Int) - t < (R : Int) then getCell g ((i : Int) - t).toNat j
      else false := by
  unfold getCell
  rw [getRow_shiftRows h ht hi]
  split
  · rfl
  · simp [new_row, List.get?_eq_getElem?, List.getElem?_replicate]
    split <;> rfl

theorem getRow_shiftCols {g : Grid} {C : Nat} (l : Int) {i : Nat} (hi : i < g.length) :
    getRow (shiftCols C l g) i = shiftList C l false (getRow g i) := by
  unfold getRow shiftCols
  rw [List.get?_eq_getElem?, List.get?_eq_getElem?, List.getElem?_map]
  rw [List.getElem?_eq_getElem hi]
  rfl

theorem hasShape_shiftCols {g : Grid} {R C : Nat} (h : hasShape g R C) (l : Int) :
    hasShape (shiftCols C l g) R C := by
  refine ⟨by simpa [shiftCols] using h.1, fun i hi => ?_⟩
  rw [getRow_shiftCols l (h.1 ▸ hi)]
  exact length_shiftList l false (length_getRow h hi)

theorem getCell_shiftCols {g : Grid} {R C : Nat} (h : hasShape g R C) {l : Int}
    (hl : l = 1 ∨ l = -1 ∨ l = 0) {i j : Nat} (hi : i < R) (hj : j < C) :
    getCell (shiftCols C l g) i j =
      if 0 ≤ (j : Int) - l ∧ (j : Int) - l < (C : Int) then getCell g i ((j : Int) - l).toNat
      else false := by
  unfold getCell
  rw [getRow_shiftCols l (h.1 ▸ hi), get?_shiftList (length_getRow h hi) hl hj]
  split
  · rfl
  · rfl

theorem getCell_shiftGrid {g : Grid} {R C : Nat} (h : hasShape g R C) {t l : Int}
    (ht : t = 1 ∨ t = -1 ∨ t = 0) (hl : l = 1 ∨ l = -1 ∨ l = 0) {i j : Nat}
    (hi : i < R) (hj : j < C) :
    getCell (shiftGrid R C t l g) i j = clampedGet g R C ((i : Int) - t) ((j : Int) - l) := by
  unfold shiftGrid clampedGet
  rw [getCell_shiftCols (hasShape_shiftRows h ht) hl hi hj]
  by_cases hc : 0 ≤ (j : Int) - l ∧ (j : Int) - l < (C : Int)
  · rw [if_pos hc, getCell_shiftRows h ht hi]
    by_cases hr : 0 ≤ (i : Int) - t ∧ (i : Int) - t < (R : Int)
    · rw [if_pos hr, if_pos ⟨hr.1, hr.2, hc.1, hc.2⟩]
    · rw [if_neg hr, if_neg (by tauto)]
  · rw [if_neg hc, if_neg (by tauto)]

theorem hasShape_shiftGrid {g : Grid} {R C : Nat} (h : hasShape g R C) {t l : Int}
    (ht : t = 1 ∨ t = -1 ∨ t = 0) : hasShape (shiftGrid R C t l g) R C :=
  hasShape_shiftCols (hasShape_shiftRows h ht) l

end GOL

namespace GOL

/-! ### Lemmas about elementwise operations on matrices -/

theorem getRow_zipWith {α β γ : Type} (F : List α → List β → List γ)
    {g1 : List (List α)} {g2 : List (List β)} {i : Nat}
    (h1 : i < g1.length) (h2 : i < g2.length) :
    getRow (List.zipWith F g1 g2) i = F (getRow g1 i) (getRow g2 i) := by
  simp only [getRow, List.get?_eq_getElem?]
  rw [List.getElem?_zipWith', List.getElem?_eq_getElem h1, List.getElem?_eq_getElem h2]
  simp

theorem getEntry_zipWith2 {α β γ : Type} (f : α → β → γ) (da : α) (db : β)
    {g1 : List (List α)} {g2 : List (List β)} {R C : Nat}
    (h1 : hasShape g1 R C) (h2 : hasShape g2 R C) {i j : Nat} (hi : i < R) (hj : j < C) :
    (getRow (List.zipWith (fun r1 r2 => List.zipWith f r1 r2) g1 g2) i).get? j
      = some (f (((getRow g1 i).get? j).getD da) (((getRow g2 i).get? j).getD db)) := by
  rw [getRow_zipWith _ (h1.1 ▸ hi) (h2.1 ▸ hi)]
  have hj1 : j < (getRow g1 i).length := (length_getRow h1 hi) ▸ hj
  have hj2 : j < (getRow g2 i).length := (length_getRow h2 hi) ▸ hj
  rw [List.get?_eq_getElem?, List.getElem?_zipWith', List.getElem?_eq_getElem hj1,
    List.getElem?_eq_getElem hj2]
  simp [List.get?_eq_getElem?, List.getElem?_eq_getElem, hj1, hj2]

theorem hasShape_zipWith2 {α β γ : Type} (f : α → β → γ)
    {g1 : List (List α)} {g2 : List (List β)} {R C : Nat}
    (h1 : hasShape g1 R C) (h2 : hasShape g2 R C) :
    hasShape (List.zipWith (fun r1 r2 => List.zipWith f r1 r2) g1 g2) R C := by
  refine ⟨by simp [List.length_zipWith, h1.1, h2.1], fun i hi => ?_⟩
  rw [getRow_zipWith _ (h1.1 ▸ hi) (h2.1 ▸ hi)]
  simp [List.length_zipWith, length_getRow h1 hi, length_getRow h2 hi]

theorem hasShape_addBoolMat {acc : List (List Nat)} {g : Grid} {R C : Nat}
    (hacc : hasShape acc R C) (hg : hasShape g R C) :
    hasShape (addBoolMat acc g) R C :=
  hasShape_zipWith2 _ hacc hg

theorem getCount_addBoolMat {acc : List (List Nat)} {g : Grid} {R C : Nat}
    (hacc : hasShape acc R C) (hg : hasShape g R C) {i j : Nat} (hi : i < R) (hj : j < C) :
    getCount (addBoolMat acc g) i j = getCount acc i j + (if getCell g i j then 1 else 0) := by
  unfold getCount addBoolMat getCell
  rw [getEntry_zipWith2 _ 0 false hacc hg hi hj]
  rfl

theorem hasShape_zeroMat (R C : Nat) :
    hasShape (List.replicate R (List.replicate C (0 : Nat))) R C := by
  refine ⟨List.length_replicate .., fun i hi => ?_⟩
  unfold getRow
  rw [List.get?_eq_getElem?, List.getElem?_replicate, if_pos hi]
  simp

theorem getCount_zeroMat (R C i j : Nat) :
    getCount (List.replicate R (List.replicate C (0 : Nat))) i j = 0 := by
  by_cases hi : i < R <;> by_cases hj : j < C <;>
    simp [getCount, getRow, List.get?_eq_getElem?, List.getElem?_replicate, hi, hj]

end GOL

namespace GOL

/-- The vectorized eight-shift accumulation of `_nb_alive_neighbors` computes,
at every in-range cell, the naive clamped neighbor count. -/
theorem nb_alive_eq_naive (m : Matrix) (h : hasShape m.cells m.nb_rows m.nb_cols)
    (i j : Nat) (hi : i < m.nb_rows) (hj : j < m.nb_cols) :
    getCount (nb_alive_neighbors m) i j =
      naiveNeighborCount m.cells m.nb_rows m.nb_cols i j := by
  have h3 : ∀ t l : Int, (t = 1 ∨ t = -1 ∨ t = 0) →
      hasShape (shiftGrid m.nb_rows m.nb_cols t l m.cells) m.nb_rows m.nb_cols :=
    fun t l ht => hasShape_shiftGrid h ht
  have h0 := hasShape_zeroMat m.nb_rows m.nb_cols
  have hA1 := hasShape_addBoolMat h0 (h3 1 0 (by norm_num))
  have hA2 := hasShape_addBoolMat hA1 (h3 (-1) 0 (by norm_num))
  have hA3 := hasShape_addBoolMat hA2 (h3 0 1 (by norm_num))
  have hA4 := hasShape_addBoolMat hA3 (h3 0 (-1) (by norm_num))
  have hA5 := hasShape_addBoolMat hA4 (h3 1 1 (by norm_num))
  have hA6 := hasShape_addBoolMat hA5 (h3 (-1) (-1) (by norm_num))
  have hA7 := hasShape_addBoolMat hA6 (h3 1 (-1) (by norm_num))
  simp only [nb_alive_neighbors, rows_cols_to_add, List.foldl_cons, List.foldl_nil]
  rw [getCount_addBoolMat hA7 (h3 (-1) 1 (by norm_num)) hi hj,
    getCount_addBoolMat hA6 (h3 1 (-1) (by norm_num)) hi hj,
    getCount_addBoolMat hA5 (h3 (-1) (-1) (by norm_num)) hi hj,
    getCount_addBoolMat hA4 (h3 1 1 (by norm_num)) hi hj,
    getCount_addBoolMat hA3 (h3 0 (-1) (by norm_num)) hi hj,
    getCount_addBoolMat hA2 (h3 0 1 (by norm_num)) hi hj,
    getCount_addBoolMat hA1 (h3 (-1) 0 (by norm_num)) hi hj,
    getCount_addBoolMat h0 (h3 1 0 (by norm_num)) hi hj,
    getCount_zeroMat]
  rw [getCell_shiftGrid h (by norm_num) (by norm_num) hi hj,
    getCell_shiftGrid h (by norm_num) (by norm_num) hi hj,
    getCell_shiftGrid h (by norm_num) (by norm_num) hi hj,
    getCell_shiftGrid h (by norm_num) (by norm_num) hi hj,
    getCell_shiftGrid h (by norm_num) (by norm_num) hi hj,
    getCell_shiftGrid h (by norm_num) (by norm_num) hi hj,
    getCell_shiftGrid h (by norm_num) (by norm_num) hi hj,
    getCell_shiftGrid h (by norm_num) (by norm_num) hi hj]
  simp only [naiveNeighborCount, neighborOffsets, List.map_cons, List.map_nil,
    List.sum_cons, List.sum_nil, sub_eq_add_neg, neg_neg, neg_zero, add_zero, sub_zero]
  omega

end GOL

namespace GOL

theorem hasShape_nb_alive_neighbors (m : Matrix)
    (h : hasShape m.cells m.nb_rows m.nb_cols) :
    hasShape (nb_alive_neighbors m) m.nb_rows m.nb_cols := by
  have h3 : ∀ t l : Int, (t = 1 ∨ t = -1 ∨ t = 0) →
      hasShape (shiftGrid m.nb_rows m.nb_cols t l m.cells) m.nb_rows m.nb_cols :=
    fun t l ht => hasShape_shiftGrid h ht
  have h0 := hasShape_zeroMat m.nb_rows m.nb_cols
  have hA1 := hasShape_addBoolMat h0 (h3 1 0 (by norm_num))
  have hA2 := hasShape_addBoolMat hA1 (h3 (-1) 0 (by norm_num))
  have hA3 := hasShape_addBoolMat hA2 (h3 0 1 (by norm_num))
  have hA4 := hasShape_addBoolMat hA3 (h3 0 (-1) (by norm_num))
  have hA5 := hasShape_addBoolMat hA4 (h3 1 1 (by norm_num))
  have hA6 := hasShape_addBoolMat hA5 (h3 (-1) (-1) (by norm_num))
  have hA7 := hasShape_addBoolMat hA6 (h3 1 (-1) (by norm_num))
  have hA8 := hasShape_addBoolMat hA7 (h3 (-1) 1 (by norm_num))
  simpa [nb_alive_neighbors, rows_cols_to_add, List.foldl_cons, List.foldl_nil] using hA8

theorem getCell_being_born (m : Matrix) {nb : List (List Nat)}
    (h : hasShape m.cells m.nb_rows m.nb_cols) (hnb : hasShape nb m.nb_rows m.nb_cols)
    {i j : Nat} (hi : i < m.nb_rows) (hj : j < m.nb_cols) :
    getCell (being_born m nb) i j =
      ((!(getCell m.cells i j) && decide (m.params.min_dead ≤ (getCount nb i j : Int))) &&
        decide ((getCount nb i j : Int) ≤ m.params.max_dead)) := by
  unfold getCell being_born getCount
  rw [getEntry_zipWith2 _ false 0 h hnb hi hj]
  rfl

theorem getCell_staying_alive (m : Matrix) {nb : List (List Nat)}
    (h : hasShape m.cells m.nb_rows m.nb_cols) (hnb : hasShape nb m.nb_rows m.nb_cols)
    {i j : Nat} (hi : i < m.nb_rows) (hj : j < m.nb_cols) :
    getCell (staying_alive m nb) i j =
      ((getCell m.cells i j && decide (m.params.min_alive ≤ (getCount nb i j : Int))) &&
        decide ((getCount nb i j : Int) ≤ m.params.max_alive)) := by
  unfold getCell staying_alive getCount
  rw [getEntry_zipWith2 _ false 0 h hnb hi hj]
  rfl

theorem getCell_update (m : Matrix) (h : hasShape m.cells m.nb_rows m.nb_cols)
    (i j : Nat) (hi : i < m.nb_rows) (hj : j < m.nb_cols) :
    getCell (update m).cells i j =
      (if getCell m.cells i j
       then decide (m.params.min_alive ≤ (getCount (nb_alive_neighbors m) i j : Int)) &&
         decide ((getCount (nb_alive_neighbors m) i j : Int) ≤ m.params.max_alive)
       else decide (m.params.min_dead ≤ (getCount (nb_alive_neighbors m) i j : Int)) &&
         decide ((getCount (nb_alive_neighbors m) i j : Int) ≤ m.params.max_dead)) := by
  have hnb := hasShape_nb_alive_neighbors m h
  have hborn : hasShape (being_born m (nb_alive_neighbors m)) m.nb_rows m.nb_cols :=
    hasShape_zipWith2 _ h hnb
  have hstay : hasShape (staying_alive m (nb_alive_neighbors m)) m.nb_rows m.nb_cols :=
    hasShape_zipWith2 _ h hnb
  show getCell (List.zipWith _ _ _) i j = _
  unfold getCell
  rw [getEntry_zipWith2 _ false false hborn hstay hi hj]
  have hb := getCell_being_born m h hnb hi hj
  have hs := getCell_staying_alive m h hnb hi hj
  unfold getCell at hb hs
  rw [Option.getD_some, hb, hs]
  cases hc : getCell m.cells i j <;> unfold getCell at hc <;> rw [hc] <;> simp

theorem hasShape_update (m : Matrix) (h : hasShape m.cells m.nb_rows m.nb_cols) :
    hasShape (update m).cells m.nb_rows m.nb_cols := by
  have hnb := hasShape_nb_alive_neighbors m h
  exact hasShape_zipWith2 _ (hasShape_zipWith2 _ h hnb) (hasShape_zipWith2 _ h hnb)

end GOL


namespace GOL

/-! ### Claim theorems -/

/-- Claim C1: for every valid engine, `step()` (`Matrix.update`) replaces the
grid with the next generation computed cell-by-cell from the pre-step
snapshot's neighbor counts — a live cell survives iff
`min_alive ≤ n ≤ max_alive`, a dead cell is born iff `min_dead ≤ n ≤ max_dead`,
every other cell is dead (thresholds inclusive) — and it increments the
iteration counter by exactly 1 and never changes `rows`/`cols` (nor the
grid's shape). -/
theorem C1_update_next_generation (m : Matrix)
    (h : hasShape m.cells m.nb_rows m.nb_cols) :
    (update m).iteration = m.iteration + 1 ∧
    (update m).nb_rows = m.nb_rows ∧
    (update m).nb_cols = m.nb_cols ∧
    (update m).params = m.params ∧
    hasShape (update m).cells m.nb_rows m.nb_cols ∧
    ∀ i j, i < m.nb_rows → j < m.nb_cols →
      getCell (update m).cells i j =
        (if getCell m.cells i j
         then decide (m.params.min_alive ≤ (getCount (nb_alive_neighbors m) i j : Int)) &&
           decide ((getCount (nb_alive_neighbors m) i j : Int) ≤ m.params.max_alive)
         else decide (m.params.min_dead ≤ (getCount (nb_alive_neighbors m) i j : Int)) &&
           decide ((getCount (nb_alive_neighbors m) i j : Int) ≤ m.params.max_dead)) :=
  ⟨rfl, rfl, rfl, rfl, hasShape_update m h, fun i j hi hj => getCell_update m h i j hi hj⟩

theorem C1_witness :
    (update blinkerEngine).iteration = blinkerEngine.iteration + 1 ∧
    getCell (update blinkerEngine).cells 1 0 =
      (if getCell blinkerEngine.cells 1 0
       then decide (blinkerEngine.params.min_alive ≤
             (getCount (nb_alive_neighbors blinkerEngine) 1 0 : Int)) &&
         decide ((getCount (nb_alive_neighbors blinkerEngine) 1 0 : Int) ≤
           blinkerEngine.params.max_alive)
       else decide (blinkerEngine.params.min_dead ≤
             (getCount (nb_alive_neighbors blinkerEngine) 1 0 : Int)) &&
         decide ((getCount (nb_alive_neighbors blinkerEngine) 1 0 : Int) ≤
           blinkerEngine.params.max_dead)) :=
  ⟨(C1_update_next_generation blinkerEngine (by decide)).1,
   (C1_update_next_generation blinkerEngine (by decide)).2.2.2.2.2 1 0 (by decide) (by decide)⟩

/-- Claim C2: the eight-offset clipped shifted-view accumulation produces, at
every cell, exactly the naive nested-loop neighbor count with non-wrapping
(clamped) boundaries; in particular, with only `(1,1)` alive the count at
corner `(0,0)` is 1, and with only `(5,5)` alive the count at `(0,0)` is 0. -/
theorem C2_shifted_accumulation_eq_naive :
    (∀ m : Matrix, hasShape m.cells m.nb_rows m.nb_cols →
      ∀ i j, i < m.nb_rows → j < m.nb_cols →
        getCount (nb_alive_neighbors m) i j =
          naiveNeighborCount m.cells m.nb_rows m.nb_cols i j) ∧
    getCount (nb_alive_neighbors cornerEngine11) 0 0 = 1 ∧
    getCount (nb_alive_neighbors cornerEngine55) 0 0 = 0 :=
  ⟨fun m h i j hi hj => nb_alive_eq_naive m h i j hi hj, by decide, by decide⟩

theorem C2_witness :
    getCount (nb_alive_neighbors cornerEngine11) 0 0 =
      naiveNeighborCount cornerEngine11.cells cornerEngine11.nb_rows
        cornerEngine11.nb_cols 0 0 :=
  C2_shifted_accumulation_eq_naive.1 cornerEngine11 (by decide) 0 0 (by decide) (by decide)

/-- Claim C3 (code bug): the spec demands that `apply_pattern` fail with
`OutOfBounds` whenever the placed block exceeds the grid extents, and the
source itself carries `# TODO Handle case out of bounds`; the code performs
no such check.  Here a 1×1 pattern placed at origin `(0, 5)` on a 2×2 grid
exceeds the column extent (`5 + 1 > 2`), yet `add_pattern` raises no error at
all: numpy clips the slice to an empty selection, broadcasts the 1×1 pattern
into it and silently writes nothing. -/
theorem C3_add_pattern_no_bounds_check :
    deadEngine2.nb_cols < 5 + 1 ∧
    add_pattern deadEngine2 [[true]] (0, 5) = Except.ok deadEngine2 :=
  ⟨by decide, rfl⟩

/-- Claim C6: one `tick()` (`Controller.step_run`) performs exactly one of:
if running, one generation step (the pending edit, if any, is untouched);
otherwise, if a cell is selected, one `change_cell` with the recorded
coordinates (the stored pair is `(x, y) = (column, row)` and `change_cell`
receives `(row, col) = (y, x)`, i.e. the recorded cell) followed by clearing
the selection; otherwise nothing.  The three cases are exhaustive and
mutually exclusive: never both a generation advance and an edit. -/
theorem C6_tick_mutually_exclusive (c : Controller) :
    (c.is_running = true → step_run c = Except.ok { c with matrix := update c.matrix }) ∧
    (c.is_running = false → ∀ x y, c.selected_cell = some (x, y) →
      step_run c = (change_cell c.matrix y x).map
        (fun mm => { c with matrix := mm, selected_cell := none })) ∧
    (c.is_running = false → c.selected_cell = none → step_run c = Except.ok c) := by
  refine ⟨fun hr => ?_, fun hr x y hs => ?_, fun hr hs => ?_⟩
  · simp [step_run, hr]
  · simp [step_run, hr, hs]
  · simp [step_run, hr, hs]

theorem C6_witness :
    step_run ⟨blinkerEngine, 0, true, some (2, 2)⟩ =
      Except.ok ⟨update blinkerEngine, 0, true, some (2, 2)⟩ :=
  (C6_tick_mutually_exclusive ⟨blinkerEngine, 0, true, some (2, 2)⟩).1 rfl

/-- Claim C8: saving a grid's cell matrix under a name and then loading that
name yields an identical cell matrix: `load(save(g)) == g.cells`. -/
theorem C8_save_load_roundtrip (params : Rule) (R C : Nat) (fs : FileSystem)
    (m : Matrix) (name : String) :
    (from_filename params R C (save fs m name) name).map Matrix.cells =
      Except.ok m.cells := by
  unfold from_filename Matrix.init save np_load
  rw [if_neg (by norm_num : ¬((0 : ℚ) < 0 ∨ 1 < (0 : ℚ)))]
  simp [Except.map]

/-- Claim C9: `from_filename` sets the engine's cell matrix to exactly the
stored matrix with its stored shape, regardless of the `nb_rows`/`nb_cols`
arguments; if the stored shape differs, the engine's recorded dimensions do
not match the shape of its cell matrix. -/
theorem C9_from_filename_ignores_declared_dims (params : Rule) (R C : Nat)
    (fs : FileSystem) (name : String) (g0 : Matrix) :
    ∀ m', from_filename params R C (save fs g0 name) name = Except.ok m' →
      m'.cells = g0.cells ∧ m'.nb_rows = R ∧ m'.nb_cols = C ∧ m'.iteration = 0 ∧
      (g0.cells.length ≠ R → m'.cells.length ≠ m'.nb_rows) := by
  intro m' hm'
  have hcomp : from_filename params R C (save fs g0 name) name =
      Except.ok { nb_rows := R, nb_cols := C, cells := g0.cells, iteration := 0,
                  params := params } := by
    unfold from_filename Matrix.init save np_load
    rw [if_neg (by norm_num : ¬((0 : ℚ) < 0 ∨ 1 < (0 : ℚ)))]
    simp
  rw [hcomp] at hm'
  injection hm' with h
  subst h
  exact ⟨rfl, rfl, rfl, rfl, fun hne => hne⟩

theorem C9_witness :
    loadedEngine.cells = soloEngine.cells ∧ loadedEngine.nb_rows = 5 ∧
    loadedEngine.nb_cols = 7 ∧ loadedEngine.iteration = 0 ∧
    loadedEngine.cells.length ≠ loadedEngine.nb_rows := by
  have h := C9_from_filename_ignores_declared_dims lifeRule 5 7 [] "snap.npy"
    soloEngine loadedEngine (by rfl)
  exact ⟨h.1, h.2.1, h.2.2.1, h.2.2.2.1, h.2.2.2.2 (by decide)⟩

/-- Claim C10: the `selected_cell` setter records a selection unconditionally
(also while running), overwriting any previous pending edit; a running
`step_run` never clears the pending edit; and the first `step_run` executed
once the controller is stopped applies the pending edit and clears it. -/
theorem C10_pending_edit_lifecycle (c : Controller) (v : Option (Int × Int)) :
    ((set_selected_cell c v).selected_cell = v ∧
     (set_selected_cell c v).is_running = c.is_running ∧
     (set_selected_cell c v).matrix = c.matrix) ∧
    (c.is_running = true →
      step_run c = Except.ok { c with matrix := update c.matrix } ∧
      ({ c with matrix := update c.matrix } : Controller).selected_cell =
        c.selected_cell ∧
      ({ c with matrix := update c.matrix } : Controller).is_running = c.is_running) ∧
    (c.is_running = false → ∀ x y, c.selected_cell = some (x, y) →
      step_run c = (change_cell c.matrix y x).map
        (fun mm => { c with matrix := mm, selected_cell := none })) := by
  refine ⟨⟨rfl, rfl, rfl⟩, fun hr => ⟨?_, rfl, rfl⟩, fun hr x y hs => ?_⟩
  · simp [step_run, hr]
  · simp [step_run, hr, hs]

theorem C10_witness :
    (set_selected_cell ⟨blinkerEngine, 0, true, some (0, 0)⟩ (some (1, 2))).selected_cell
        = some (1, 2) ∧
    step_run ⟨blinkerEngine, 0, true, some (1, 2)⟩ =
      Except.ok ⟨update blinkerEngine, 0, true, some (1, 2)⟩ := by
  refine ⟨(C10_pending_edit_lifecycle ⟨blinkerEngine, 0, true, some (0, 0)⟩
    (some (1, 2))).1.1, ?_⟩
  exact ((C10_pending_edit_lifecycle ⟨blinkerEngine, 0, true, some (1, 2)⟩
    (some (1, 2))).2.1 rfl).1

end GOL

namespace GOL

/-! ### Lemmas about Python indexing, `set`, and pattern parsing -/

theorem pyIndex_eq_none_iff (n : Nat) (x : Int) :
    pyIndex n x = none ↔ (x < -(n : Int) ∨ (n : Int) ≤ x) := by
  unfold pyIndex
  split_ifs with h1 h2 h3 <;> simp <;> omega

theorem pyIndex_some_lt {n : Nat} {x : Int} {i : Nat} (h : pyIndex n x = some i) :
    i < n := by
  unfold pyIndex at h
  split_ifs at h <;> simp at h <;> omega

theorem pyIndex_some_not_out {n : Nat} {x : Int} {i : Nat} (h : pyIndex n x = some i) :
    ¬ (x < -(n : Int) ∨ (n : Int) ≤ x) := by
  intro hout
  rw [(pyIndex_eq_none_iff n x).mpr hout] at h
  exact Option.noConfusion h

theorem getRow_set_self {α : Type} {g : List (List α)} {i : Nat} (hi : i < g.length)
    (r : List α) : getRow (g.set i r) i = r := by
  unfold getRow
  rw [List.get?_eq_getElem?, List.getElem?_set_self hi]
  rfl

theorem getRow_set_ne {α : Type} {g : List (List α)} {i a : Nat} (hne : a ≠ i)
    (r : List α) : getRow (g.set i r) a = getRow g a := by
  unfold getRow
  rw [List.get?_eq_getElem?, List.get?_eq_getElem?,
    List.getElem?_set_ne (fun hh => hne hh.symm)]

theorem get?D_set_self {α : Type} {r : List α} {j : Nat} (hj : j < r.length)
    (v d : α) : ((r.set j v).get? j).getD d = v := by
  rw [List.get?_eq_getElem?, List.getElem?_set_self hj]
  rfl

theorem get?D_set_ne {α : Type} {r : List α} {j b : Nat} (hne : b ≠ j) (v d : α) :
    ((r.set j v).get? b).getD d = (r.get? b).getD d := by
  rw [List.get?_eq_getElem?, List.get?_eq_getElem?,
    List.getElem?_set_ne (fun hh => hne hh.symm)]

theorem all_map_fun {α β : Type} (f : α → β) (l : List α) (p : β → Bool) :
    (l.map f).all p = l.all (fun a => p (f a)) := by
  induction l with
  | nil => rfl
  | cons a l ih => simp [List.all_cons, ih]

theorem getRow_map_map {α β : Type} (f : α → β) (lines : List (List α)) (i : Nat) :
    getRow (lines.map (fun line => line.map f)) i = (getRow lines i).map f := by
  unfold getRow
  rw [List.get?_eq_getElem?, List.get?_eq_getElem?, List.getElem?_map]
  cases lines[i]? <;> simp

end GOL

namespace GOL

/-- Claim C4 (counterexample): the claim states `toggle_cell` fails whenever
the row is outside `[0, rows)`; but on a 2×2 grid `change_cell(-1, 0)` raises
no error — Python/numpy negative indexing wraps to the last row, toggling
cell `(1, 0)`. -/
theorem C4_counterexample :
    ¬ (0 ≤ (-1 : Int)) ∧
    change_cell deadEngine2 (-1) 0 =
      Except.ok { deadEngine2 with cells := [[false, false], [true, false]] } :=
  ⟨by decide, rfl⟩

/-- Claim C4 (amended): `toggle_cell(row, col)` fails with `IndexError` iff
`row ∉ [-rows, rows)` or `col ∉ [-cols, cols)` (negative indices address from
the end, Python-style); when it succeeds it flips exactly the boolean at the
addressed cell, changes no other cell, and leaves the iteration counter,
dimensions and rule unchanged. -/
theorem C4_toggle_python_indexing (m : Matrix)
    (h : hasShape m.cells m.nb_rows m.nb_cols) (x y : Int) :
    ((∃ e, change_cell m x y = Except.error e) ↔
      (x < -(m.nb_rows : Int) ∨ (m.nb_rows : Int) ≤ x ∨
       y < -(m.nb_cols : Int) ∨ (m.nb_cols : Int) ≤ y)) ∧
    (∀ m', change_cell m x y = Except.ok m' →
      m'.nb_rows = m.nb_rows ∧ m'.nb_cols = m.nb_cols ∧ m'.iteration = m.iteration ∧
      m'.params = m.params ∧
      ∀ i j, pyIndex m.nb_rows x = some i → pyIndex m.nb_cols y = some j →
        (getCell m'.cells i j = !(getCell m.cells i j)) ∧
        (∀ a b, ¬(a = i ∧ b = j) → getCell m'.cells a b = getCell m.cells a b)) := by
  have hR : m.cells.length = m.nb_rows := h.1
  rcases hx : pyIndex m.cells.length x with _ | i
  · have hcc : change_cell m x y = Except.error "IndexError" := by
      unfold change_cell
      rw [hx]
    rw [hR] at hx
    have hout := (pyIndex_eq_none_iff m.nb_rows x).mp hx
    rw [hcc]
    constructor
    · constructor
      · intro _
        rcases hout with hout | hout
        · exact Or.inl hout
        · exact Or.inr (Or.inl hout)
      · intro _
        exact ⟨"IndexError", rfl⟩
    · intro m' hm'
      exact Except.noConfusion hm'
  · have hiR : i < m.cells.length := pyIndex_some_lt hx
    have hrowlen : (getRow m.cells i).length = m.nb_cols := h.2 i (hR ▸ hiR)
    have hxR : pyIndex m.nb_rows x = some i := hR ▸ hx
    have hcc1 : change_cell m x y =
        (match pyIndex (getRow m.cells i).length y with
         | none => Except.error "IndexError"
         | some j =>
           Except.ok
             { m with cells :=
                 m.cells.set i ((getRow m.cells i).set j (!(getCell m.cells i j))) }) := by
      unfold change_cell
      rw [hx]
    rcases hy : pyIndex (getRow m.cells i).length y with _ | j
    · rw [hy] at hcc1
      rw [hrowlen] at hy
      have hout := (pyIndex_eq_none_iff m.nb_cols y).mp hy
      rw [hcc1]
      constructor
      · constructor
        · intro _
          rcases hout with hout | hout
          · exact Or.inr (Or.inr (Or.inl hout))
          · exact Or.inr (Or.inr (Or.inr hout))
        · intro _
          exact ⟨"IndexError", rfl⟩
      · intro m' hm'
        exact Except.noConfusion hm'
    · rw [hy] at hcc1
      have hjC : j < (getRow m.cells i).length := pyIndex_some_lt hy
      have hyC : pyIndex m.nb_cols y = some j := hrowlen ▸ hy
      rw [hcc1]
      constructor
      · constructor
        · intro he
          rcases he with ⟨e, he⟩
          exact Except.noConfusion he
        · intro hout
          exfalso
          rcases hout with hout | hout | hout | hout
          · exact pyIndex_some_not_out hxR (Or.inl hout)
          · exact pyIndex_some_not_out hxR (Or.inr hout)
          · exact pyIndex_some_not_out hyC (Or.inl hout)
          · exact pyIndex_some_not_out hyC (Or.inr hout)
      · intro m' hm'
        injection hm' with hmm
        subst hmm
        refine ⟨rfl, rfl, rfl, rfl, fun i' j' hxi' hyj' => ?_⟩
        have hii : i' = i := by
          rw [hxR] at hxi'
          exact (Option.some_inj.mp hxi').symm
        have hjj : j' = j := by
          rw [hyC] at hyj'
          exact (Option.some_inj.mp hyj').symm
        subst hii
        subst hjj
        constructor
        · show getCell (m.cells.set i' _) i' j' = _
          unfold getCell
          rw [getRow_set_self hiR, get?D_set_self hjC]
        · intro a b hab
          unfold getCell
          by_cases ha : a = i'
          · subst ha
            have hbj : b ≠ j' := fun hb => hab ⟨rfl, hb⟩
            rw [getRow_set_self hiR, get?D_set_ne hbj]
          · rw [getRow_set_ne ha]

theorem C4_witness :
    getCell { deadEngine2 with cells := [[false, true], [false, false]] }.cells 0 1 =
      !(getCell deadEngine2.cells 0 1) ∧
    getCell { deadEngine2 with cells := [[false, true], [false, false]] }.cells 1 1 =
      getCell deadEngine2.cells 1 1 := by
  have h := ((C4_toggle_python_indexing deadEngine2 (by decide) 0 1).2
    { deadEngine2 with cells := [[false, true], [false, false]] } rfl).2.2.2.2
    0 1 (by decide) (by decide)
  exact ⟨h.1, h.2 1 1 (by decide)⟩

end GOL

namespace GOL

/-- Claim C5 (counterexample): the claim states construction fails whenever
the rule quadruple is inconsistent; but `Matrix.__init__` only validates
`init_live_pct`.  With `badRule` — which has `min_alive > max_alive`,
`min_dead > max_dead` and a threshold outside `[0, 8]` — and a valid fill of
0, construction succeeds (iteration 0). -/
theorem C5_counterexample :
    badRule.max_alive < badRule.min_alive ∧ badRule.max_dead < badRule.min_dead ∧
    (8 : Int) < badRule.min_dead ∧
    Matrix.init badRule 2 2 0 deadEngine2.cells =
      Except.ok ⟨2, 2, deadEngine2.cells, 0, badRule⟩ :=
  ⟨by decide, by decide, by decide, rfl⟩

/-- Claim C5 (amended): engine construction fails (`ValueError`) iff
`init_fill` lies outside `[0, 1]`; the rule quadruple is not validated; on
success the iteration counter starts at 0 and the fields are as passed. -/
theorem C5_init_validates_only_fill (params : Rule) (R C : Nat) (pct : ℚ)
    (sample : Grid) :
    ((∃ e, Matrix.init params R C pct sample = Except.error e) ↔
      (pct < 0 ∨ 1 < pct)) ∧
    (∀ m', Matrix.init params R C pct sample = Except.ok m' →
      m'.iteration = 0 ∧ m'.nb_rows = R ∧ m'.nb_cols = C ∧ m'.params = params ∧
      m'.cells = sample) := by
  unfold Matrix.init
  split_ifs with hc
  · constructor
    · exact ⟨fun _ => hc, fun _ => ⟨_, rfl⟩⟩
    · intro m' hm'
      cases hm'
  · constructor
    · constructor
      · intro he
        rcases he with ⟨e, he⟩
        cases he
      · intro hp
        exact absurd hp hc
    · intro m' hm'
      injection hm' with hmm
      subst hmm
      exact ⟨rfl, rfl, rfl, rfl, rfl⟩

theorem C5_witness :
    ((∃ e, Matrix.init lifeRule 1 1 0 [[true]] = Except.error e) ↔
      ((0 : ℚ) < 0 ∨ 1 < (0 : ℚ))) ∧
    soloEngine.iteration = 0 := by
  have h := C5_init_validates_only_fill lifeRule 1 1 0 [[true]]
  exact ⟨h.1, (h.2 soloEngine rfl).1⟩

/-- Claim C7 (counterexample): the claim predicts a `number_of_lines ×
max_line_length` matrix with shorter lines padded dead; but `load_pattern`
keeps the trailing newline of every line read (an extra dead column), and
`np.loadtxt` rejects ragged rows instead of padding.  On `"OO\nOO\n"` the
result is 2×3, not 2×2; on `"O\nOO\n"` loading fails outright. -/
theorem C7_counterexample :
    load_pattern ("OO\nOO\n".toList) = Except.ok [[1, 1, 0], [1, 1, 0]] ∧
    ¬ load_pattern ("OO\nOO\n".toList) = Except.ok [[1, 1], [1, 1]] ∧
    load_pattern ("O\nOO\n".toList) = Except.error "ValueError" := by
  refine ⟨rfl, fun hc => ?_, rfl⟩
  rw [show load_pattern ("OO\nOO\n".toList) = Except.ok [[1, 1, 0], [1, 1, 0]] from rfl]
    at hc
  injection hc with hmm
  simp at hmm

/-- Claim C7 (amended): for every pattern text, `load` maps each line read
(trailing newline included) to a row holding 1 exactly where the alive
character `'O'` appears and 0 elsewhere; when all read lines have the same
length it returns the `number_of_lines × common_line_length` matrix, and it
fails (`ValueError`) on ragged lines rather than padding; an empty input
yields an empty matrix. -/
theorem C7_load_pattern_rows (contents : List Char) :
    (readlines contents = [] → load_pattern contents = Except.ok []) ∧
    (∀ l0 ls, readlines contents = l0 :: ls →
      ls.all (fun l => l.length == l0.length) = true →
      ∃ M, load_pattern contents = Except.ok M ∧
        M.length = (l0 :: ls).length ∧
        (∀ r ∈ M, r.length = l0.length) ∧
        (∀ i j, ((getRow M i).get? j = some 1) ↔
          ((getRow (l0 :: ls) i).get? j = some 'O')) ∧
        (∀ i j, ((getRow M i).get? j = some 0) ↔
          (∃ c, (getRow (l0 :: ls) i).get? j = some c ∧ c ≠ 'O'))) ∧
    (∀ l0 ls, readlines contents = l0 :: ls →
      ls.all (fun l => l.length == l0.length) = false →
      load_pattern contents = Except.error "ValueError") := by
  refine ⟨fun he => ?_, fun l0 ls hl hall => ?_, fun l0 ls hl hall => ?_⟩
  · unfold load_pattern
    rw [he]
    rfl
  · have hcond : (ls.map (fun line => line.map (fun c => if c = 'O' then (1 : Nat) else 0))).all
        (fun r => r.length == (l0.map (fun c => if c = 'O' then (1 : Nat) else 0)).length) = true := by
      rw [all_map_fun]
      simp only [List.length_map]
      exact hall
    have hlp : load_pattern contents =
        Except.ok ((l0 :: ls).map (fun line => line.map (fun c => if c = 'O' then (1 : Nat) else 0))) := by
      unfold load_pattern
      rw [hl]
      simp only [List.map_cons]
      rw [if_pos hcond]
    have hlen : ∀ l ∈ l0 :: ls, l.length = l0.length := by
      intro l hll
      rcases List.mem_cons.mp hll with rfl | hll
      · rfl
      · have := List.all_eq_true.mp hall l hll
        exact beq_iff_eq.mp this
    refine ⟨_, hlp, by simp, ?_, ?_, ?_⟩
    · intro r hr
      rcases List.mem_map.mp hr with ⟨line, hline, rfl⟩
      rw [List.length_map]
      exact hlen line hline
    · intro i j
      rw [getRow_map_map, List.get?_eq_getElem?, List.get?_eq_getElem?, List.getElem?_map]
      cases hc : (getRow (l0 :: ls) i)[j]? with
      | none => simp
      | some c =>
        by_cases hco : c = 'O' <;> simp [hco]
    · intro i j
      rw [getRow_map_map, List.get?_eq_getElem?, List.get?_eq_getElem?, List.getElem?_map]
      cases hc : (getRow (l0 :: ls) i)[j]? with
      | none => simp
      | some c =>
        by_cases hco : c = 'O' <;> simp [hco]
  · have hcond : (ls.map (fun line => line.map (fun c => if c = 'O' then (1 : Nat) else 0))).all
        (fun r => r.length == (l0.map (fun c => if c = 'O' then (1 : Nat) else 0)).length) = false := by
      rw [all_map_fun]
      simp only [List.length_map]
      exact hall
    unfold load_pattern
    rw [hl]
    simp only [List.map_cons]
    rw [if_neg (by rw [hcond]; exact Bool.false_ne_true)]

theorem C7_witness :
    ∃ M, load_pattern ("OO\nOO\n".toList) = Except.ok M ∧
      M.length = (("OO\n".toList) :: [("OO\n".toList)]).length ∧
      (∀ r ∈ M, r.length = ("OO\n".toList).length) ∧
      (∀ i j, ((getRow M i).get? j = some 1) ↔
        ((getRow (("OO\n".toList) :: [("OO\n".toList)]) i).get? j = some 'O')) ∧
      (∀ i j, ((getRow M i).get? j = some 0) ↔
        (∃ c, (getRow (("OO\n".toList) :: [("OO\n".toList)]) i).get? j = some c ∧
          c ≠ 'O')) :=
  (C7_load_pattern_rows ("OO\nOO\n".toList)).2.1 ("OO\n".toList) [("OO\n".toList)]
    (by decide) (by decide)

end GOL
